import Mathlib

/-!
Verification of the stepper-motor position/calibration/stall controller in
src/src/motor.h of the motorshades repository.

The controller is a set of C functions over global mutable state
(maxPos, currPos, prevPos, isSetMax, isSetMin, isMotorRunning) that drive an
external motion engine (FastAccelStepper).  We embed the globals together with
the observable motion-engine state in one record, and embed each C function as
a pure function from that record to a new record paired with the list of
external calls (motion-engine commands, flash writes, MQTT report) it makes,
in program order.

Modelling conventions:
  - the motion engine is modelled at its interface: getCurrentPosition and
    targetPos are the fields stepperPos and stepperTarget; isRunning is
    stepperRunning; moveTo sets the target and starts the motor; forceStop is
    a hard stop (running becomes false, the pending target is abandoned);
    setCurrentPosition at standstill sets both the counter and the pending
    target to the given value; stopMove only requests a deceleration, the
    actual stop is a later environment observation;
  - whether and where the physical motor stops is decided by the environment,
    not the code, so it is a separate transition envObserve that updates the
    observed stepper position and running flag;
  - C float arithmetic on the small quantities involved (percent * maxPos,
    currPos / maxPos * 100) is exact, so it is embedded as exact integer
    arithmetic with round-half-away-from-zero, the semantics of C round();
  - persistent storage (Preferences) is the pair of optional stored values
    memMaxPos / memCurrPos; putInt is recorded both in the state and as an
    event; getInt with a default reads the optional value;
  - vTaskDelay and Serial logging have no observable effect on this state and
    are not modelled.
-/

namespace Motorshades

/-- Round half away from zero of the exact quotient n / d, for d > 0.
For q >= 0 this is the floor of q + 1/2; the function is odd.  This is the
semantics of the C round() applied to an exact quotient. -/
def roundHalfAway (n d : Int) : Int :=
  if n < 0 then -((2 * (-n) + d) / (2 * d)) else (2 * n + d) / (2 * d)

/-- Round half away from zero of n / d for any nonzero d, by normalising the
sign of the denominator. -/
def roundQuot (n d : Int) : Int :=
  if d < 0 then roundHalfAway (-n) (-d) else roundHalfAway n d

/-- The global state of motor.h together with the observable state of the
motion engine and of persistent storage.  max_speed is the compile-time
configuration constant from motor_settings.h, never mutated. -/
structure MotorState where
  max_speed : Int
  maxPos : Int
  currPos : Int
  prevPos : Int
  isSetMax : Bool
  isSetMin : Bool
  isMotorRunning : Bool
  stepperPos : Int
  stepperTarget : Int
  stepperSpeed : Int
  stepperRunning : Bool
  memMaxPos : Option Int
  memCurrPos : Option Int
deriving DecidableEq, Repr

/-- External calls made by the controller, in program order. -/
inductive Event where
  | forceStop
  | moveTo (pos : Int)
  | stopMove
  | setCurrentPos (pos : Int)
  | setSpeedInHz (hz : Int)
  | putMaxPos (v : Int)
  | putCurrPos (v : Int)
  | sendMqtt (pct : Option Int)
deriving DecidableEq, Repr

/-- Effect of stepper->forceStop(): hard stop, the motor is no longer running
and the pending target is abandoned at the current position. -/
def forceStopFx (s : MotorState) : MotorState :=
  { s with stepperRunning := false, stepperTarget := s.stepperPos }

/-- The environment moving the physical motor: the code does not control where
the motor actually is nor when it stops (stall, hard limit, or reaching the
target); a poll observes position pos and running flag r. -/
def envObserve (s : MotorState) (pos : Int) (r : Bool) : MotorState :=
  { s with stepperPos := pos, stepperRunning := r }

/-- The ISR attached to the DIAG pin (motor.h line 35): on stall it
force-stops the stepper immediately, in the interrupt context. -/
def stallguardInterrupt (s : MotorState) : MotorState × List Event :=
  (forceStopFx s, [Event.forceStop])

/-- loadPositions (motor.h line 41): read maxPos with default 50000 and
currPos with default 0 from flash, and initialise the stepper counter to the
loaded currPos. -/
def loadPositions (s : MotorState) : MotorState × List Event :=
  let m := s.memMaxPos.getD 50000
  let c := s.memCurrPos.getD 0
  ({ s with maxPos := m, currPos := c, stepperPos := c, stepperTarget := c },
   [Event.setCurrentPos c])

/-- percentToSteps (motor.h line 96): round(percent * maxPos / 100), reading
the global maxPos. -/
def percentToSteps (s : MotorState) (percent : Int) : Int :=
  roundHalfAway (percent * s.maxPos) 100

/-- The condition of the first if of motorMoveTo (motor.h lines 104-105):
(newPos < targetPos and currentPosition < targetPos) or
(newPos > targetPos and currentPosition > targetPos). -/
def reversalGuard (newPos target pos : Int) : Bool :=
  (newPos < target && pos < target) || (target < newPos && target < pos)

/-- motorMoveTo (motor.h line 103): force-stop when the reversal guard holds,
then move when the new target differs from the current position and does not
exceed maxPos, setting isMotorRunning. -/
def motorMoveTo (s : MotorState) (newPos : Int) : MotorState × List Event :=
  let s1 := if reversalGuard newPos s.stepperTarget s.stepperPos then forceStopFx s else s
  let e1 : List Event :=
    if reversalGuard newPos s.stepperTarget s.stepperPos then [Event.forceStop] else []
  if newPos ≠ s1.stepperPos ∧ newPos ≤ s1.maxPos then
    ({ s1 with stepperTarget := newPos, stepperRunning := true, isMotorRunning := true },
     e1 ++ [Event.moveTo newPos])
  else (s1, e1)

/-- motorMove (motor.h line 115): motorMoveTo of percentToSteps. -/
def motorMove (s : MotorState) (percent : Int) : MotorState × List Event :=
  motorMoveTo s (percentToSteps s percent)

/-- motorMin (motor.h line 120). -/
def motorMin (s : MotorState) : MotorState × List Event :=
  motorMoveTo s 0

/-- motorMax (motor.h line 125). -/
def motorMax (s : MotorState) : MotorState × List Event :=
  motorMoveTo s s.maxPos

/-- motorSetMax (motor.h line 130): raise the isSetMax flag, quarter the
speed, set maxPos to the sentinel 2147483646 and command a move to it. -/
def motorSetMax (s : MotorState) : MotorState × List Event :=
  let s1 := { s with isSetMax := true, stepperSpeed := s.max_speed / 4,
                     maxPos := 2147483646 }
  ((motorMoveTo s1 2147483646).1,
   Event.setSpeedInHz (s.max_speed / 4) :: (motorMoveTo s1 2147483646).2)

/-- motorSetMin (motor.h line 138): raise the isSetMin flag, quarter the
speed, remember the current position in prevPos, set the stepper counter to
the sentinel 2147483646 and command a move to 0. -/
def motorSetMin (s : MotorState) : MotorState × List Event :=
  let s1 := { s with isSetMin := true, stepperSpeed := s.max_speed / 4,
                     prevPos := s.stepperPos,
                     stepperPos := 2147483646, stepperTarget := 2147483646 }
  ((motorMoveTo s1 0).1,
   Event.setSpeedInHz (s.max_speed / 4) :: Event.setCurrentPos 2147483646 ::
     (motorMoveTo s1 0).2)

/-- motorCurrentPercentage (motor.h line 148): 0 when currPos is 0, otherwise
round(currPos / maxPos * 100).  On that branch the source divides by maxPos
with no guard; a zero maxPos makes the float quotient infinite and the
conversion to int undefined, embedded as none. -/
def motorCurrentPercentage (currPos maxPos : Int) : Option Int :=
  if currPos = 0 then some 0
  else if maxPos = 0 then none
  else some (roundQuot (currPos * 100) maxPos)

/-- motorStop (motor.h line 156): request a deceleration stop; the motor keeps
running until the environment observes it stopped. -/
def motorStop (s : MotorState) : MotorState × List Event :=
  (s, [Event.stopMove])

/-- The calibration finalisation inside motorRun (motor.h lines 167-178),
taken after the running flag is cleared: the SetMax branch commits maxPos to
the reached position and persists it; the SetMin branch recomputes maxPos from
the distance traveled and resets the counter to 0; both restore max_speed. -/
def finalizeCalib (s : MotorState) : MotorState × List Event :=
  if s.isSetMax then
    ({ s with isSetMax := false, maxPos := s.stepperPos,
              memMaxPos := some s.stepperPos, stepperSpeed := s.max_speed },
     [Event.putMaxPos s.stepperPos, Event.setSpeedInHz s.max_speed])
  else if s.isSetMin then
    ({ s with isSetMin := false,
              maxPos := s.maxPos + (2147483646 - s.stepperPos) - s.prevPos,
              stepperPos := 0, stepperTarget := 0, stepperSpeed := s.max_speed },
     [Event.setCurrentPos 0, Event.setSpeedInHz s.max_speed])
  else (s, [])

/-- motorRun (motor.h line 161), one poll of the run loop: nothing unless
isMotorRunning; when the stepper is observed stopped, clear the flag, finalise
any calibration, record the reached position in currPos, persist it and report
the percentage over MQTT. -/
def motorRun (s : MotorState) : MotorState × List Event :=
  if s.isMotorRunning then
    if !s.stepperRunning then
      let s1 : MotorState := { s with isMotorRunning := false }
      let s2 := (finalizeCalib s1).1
      let c := s2.stepperPos
      ({ s2 with currPos := c, memCurrPos := some c },
       (finalizeCalib s1).2 ++
         [Event.putCurrPos c, Event.sendMqtt (motorCurrentPercentage c s2.maxPos)])
    else (s, [])
  else (s, [])

/-- The inbound commands of the controller, plus the stall interrupt and one
poll of the run loop. -/
inductive Cmd where
  | moveToPos (n : Int)
  | movePercent (p : Int)
  | goMin
  | goMax
  | setMaxCmd
  | setMinCmd
  | stopCmd
  | stallIrq
  | runPoll
deriving DecidableEq, Repr

/-- Dispatch one command to the corresponding function of motor.h. -/
def step (s : MotorState) : Cmd → MotorState × List Event
  | Cmd.moveToPos n => motorMoveTo s n
  | Cmd.movePercent p => motorMove s p
  | Cmd.goMin => motorMin s
  | Cmd.goMax => motorMax s
  | Cmd.setMaxCmd => motorSetMax s
  | Cmd.setMinCmd => motorSetMin s
  | Cmd.stopCmd => motorStop s
  | Cmd.stallIrq => stallguardInterrupt s
  | Cmd.runPoll => motorRun s

/-- A quiescent state after a completed move at position p, with maxPos m,
normal speed v, persisted values matching memory. -/
def quiet (v m p : Int) : MotorState :=
  { max_speed := v, maxPos := m, currPos := p, prevPos := 0,
    isSetMax := false, isSetMin := false, isMotorRunning := false,
    stepperPos := p, stepperTarget := p, stepperSpeed := v,
    stepperRunning := false, memMaxPos := some m, memCurrPos := some p }

/-- The direction-reversal condition as the specification words it: the new
target and the in-progress target lie on strictly opposite sides of the
current actual position.  Modelled from the spec, for comparison with the
reversalGuard taken from the source. -/
def specOppositeSides (newPos target pos : Int) : Bool :=
  (newPos < pos && pos < target) || (target < pos && pos < newPos)

/-- Predicate selecting the flash write of the current position. -/
def isPutCurr : Event → Bool
  | Event.putCurrPos _ => true
  | _ => false

/- Pointer-aware model for the startup path.  The FastAccelStepper handle
returned by engine.stepperConnectToPin (motor.h line 78) may be null; these
definitions model only the pointer accesses of the affected functions (the
full state logic is embedded above, under the assumption of a valid handle).
A dereference of a null handle is the error NullDeref.nullDeref. -/

/-- Observable fields of a valid stepper handle. -/
structure StepperHW where
  pos : Int
  target : Int
  speed : Int
  running : Bool
deriving DecidableEq, Repr

/-- The outcome of dereferencing a null pointer. -/
inductive NullDeref where
  | nullDeref
deriving DecidableEq, Repr

/-- Dereference the stepper handle: error when it is null. -/
def sderef {α : Type} (p : Option StepperHW) (f : StepperHW → α) :
    Except NullDeref α :=
  match p with
  | none => Except.error NullDeref.nullDeref
  | some st => Except.ok (f st)

/-- loadPositions with the stepper handle explicit (motor.h line 41): the two
getInt reads succeed, then stepper->setCurrentPosition dereferences the handle
with no null check. -/
def loadPositionsN (stepper : Option StepperHW) (memMax memCurr : Option Int) :
    Except NullDeref (Int × Int × StepperHW) :=
  let m := memMax.getD 50000
  let c := memCurr.getD 0
  (sderef stepper id).map (fun st => (m, c, { st with pos := c, target := c }))

/-- Tail of motorSetup (motor.h lines 78-92): bind the connect result; when it
is non-null configure it, otherwise only log an error; in both cases proceed
to loadPositions unconditionally. -/
def motorSetupN (connectResult : Option StepperHW)
    (memMax memCurr : Option Int) : Except NullDeref (Int × Int × StepperHW) :=
  match connectResult with
  | some st =>
      loadPositionsN (some { st with speed := st.speed }) memMax memCurr
  | none =>
      loadPositionsN none memMax memCurr

/-- motorMoveTo with the stepper handle explicit: the first statement already
reads stepper->targetPos() and stepper->getCurrentPosition() with no null
check. -/
def motorMoveToN (stepper : Option StepperHW) (maxPos newPos : Int) :
    Except NullDeref StepperHW :=
  (sderef stepper id).bind (fun st =>
    let st1 := if reversalGuard newPos st.target st.pos
               then { st with running := false, target := st.pos } else st
    if newPos ≠ st1.pos ∧ newPos ≤ maxPos then
      Except.ok { st1 with target := newPos, running := true }
    else Except.ok st1)

/-- motorStop with the stepper handle explicit: stepper->stopMove() with no
null check. -/
def motorStopN (stepper : Option StepperHW) : Except NullDeref Unit :=
  sderef stepper (fun _ => ())

/-- The stepper accesses of one motorRun poll with the handle explicit: when
isMotorRunning, stepper->isRunning() is read with no null check. -/
def motorRunN (stepper : Option StepperHW) (isMotorRunning : Bool) :
    Except NullDeref Bool :=
  if isMotorRunning then sderef stepper (fun st => st.running)
  else Except.ok false

/- Concrete states used to evaluate the definitions. -/

/-- A quiescent state at position 1000 with maxPos 50000 and speed 1000. -/
def base : MotorState := quiet 1000 50000 1000

/-- State after issuing SetMax from base. -/
def c1s1 : MotorState := (motorSetMax base).1

/-- The motor observed moving at raw position 48731 during the SetMax move. -/
def c1s2 : MotorState := envObserve c1s1 48731 true

/-- State after the stall interrupt fires at position 48731. -/
def c1s3 : MotorState := (stallguardInterrupt c1s2).1

/-- A SetMin move observed stopped at raw position 2147483000 with
prevPos 1000, just before the finalising poll. -/
def q3min : MotorState :=
  { base with isSetMin := true, isMotorRunning := true,
              stepperPos := 2147483000, stepperTarget := 0, prevPos := 1000,
              stepperSpeed := 250 }

/-- A plain (non-calibration) move from base observed stopped. -/
def q7 : MotorState := { base with isMotorRunning := true }

/-- A move in progress from position 10 toward target 100. -/
def q6 : MotorState :=
  { quiet 1000 50000 10 with stepperTarget := 100, stepperRunning := true,
                             isMotorRunning := true }

/-- A move in progress from position 100 toward target 200, maxPos 1000. -/
def q8 : MotorState :=
  { quiet 1000 1000 100 with stepperTarget := 200, stepperRunning := true,
                             isMotorRunning := true }

/- Helper characterisations, shared by the claim proofs. -/

/-- Closed form of motorMoveTo: the final state and the emitted events as
functions of the two guards. -/
theorem motorMoveTo_eq (s : MotorState) (n : Int) :
    motorMoveTo s n =
      (if n ≠ s.stepperPos ∧ n ≤ s.maxPos then
         { (if reversalGuard n s.stepperTarget s.stepperPos then forceStopFx s
            else s) with
           stepperTarget := n, stepperRunning := true, isMotorRunning := true }
       else
         (if reversalGuard n s.stepperTarget s.stepperPos then forceStopFx s
          else s),
       (if reversalGuard n s.stepperTarget s.stepperPos then [Event.forceStop]
        else []) ++
         (if n ≠ s.stepperPos ∧ n ≤ s.maxPos then [Event.moveTo n] else [])) := by
  unfold motorMoveTo
  cases hg : reversalGuard n s.stepperTarget s.stepperPos <;>
    simp [forceStopFx] <;> split <;> simp

/-- motorMoveTo never changes maxPos. -/
theorem motorMoveTo_maxPos (s : MotorState) (n : Int) :
    (motorMoveTo s n).1.maxPos = s.maxPos := by
  rw [motorMoveTo_eq]
  split <;> split <;> rfl

/-- Every event of motorMoveTo is a forceStop or the moveTo of its argument. -/
theorem motorMoveTo_events (s : MotorState) (n : Int) :
    ∀ e ∈ (motorMoveTo s n).2, e = Event.forceStop ∨ e = Event.moveTo n := by
  rw [motorMoveTo_eq]
  split <;> split <;> simp

/-- motorRun is inert while the running flag is down. -/
theorem motorRun_flag_down (s : MotorState) (h : s.isMotorRunning = false) :
    motorRun s = (s, []) := by
  simp [motorRun, h]

/-- motorRun is inert while the stepper is still observed running. -/
theorem motorRun_still_running (s : MotorState) (h1 : s.isMotorRunning = true)
    (h2 : s.stepperRunning = true) : motorRun s = (s, []) := by
  simp [motorRun, h1, h2]

/-- Closed form of the finalising poll when a SetMax calibration is active:
the reached position becomes maxPos, is persisted, the speed is restored and
both the calibration flag and the running flag are cleared. -/
theorem motorRun_complete_setmax (s : MotorState) (h1 : s.isMotorRunning = true)
    (h2 : s.stepperRunning = false) (h3 : s.isSetMax = true) :
    motorRun s =
      ({ s with isMotorRunning := false, isSetMax := false,
                maxPos := s.stepperPos, memMaxPos := some s.stepperPos,
                stepperSpeed := s.max_speed, currPos := s.stepperPos,
                memCurrPos := some s.stepperPos },
       [Event.putMaxPos s.stepperPos, Event.setSpeedInHz s.max_speed,
        Event.putCurrPos s.stepperPos,
        Event.sendMqtt (motorCurrentPercentage s.stepperPos s.stepperPos)]) := by
  simp [motorRun, finalizeCalib, h1, h2, h3]

/-- Closed form of the finalising poll when a SetMin calibration is active:
maxPos is shifted by the distance traveled from the sentinel minus prevPos,
the counter is reset to 0, the speed restored, the flags cleared; the new
maxPos is not persisted. -/
theorem motorRun_complete_setmin (s : MotorState) (h1 : s.isMotorRunning = true)
    (h2 : s.stepperRunning = false) (h3 : s.isSetMax = false)
    (h4 : s.isSetMin = true) :
    motorRun s =
      ({ s with isMotorRunning := false, isSetMin := false,
                maxPos := s.maxPos + (2147483646 - s.stepperPos) - s.prevPos,
                stepperPos := 0, stepperTarget := 0,
                stepperSpeed := s.max_speed, currPos := 0,
                memCurrPos := some 0 },
       [Event.setCurrentPos 0, Event.setSpeedInHz s.max_speed,
        Event.putCurrPos 0,
        Event.sendMqtt (motorCurrentPercentage 0
          (s.maxPos + (2147483646 - s.stepperPos) - s.prevPos))]) := by
  simp [motorRun, finalizeCalib, h1, h2, h3, h4]

/-- Closed form of the finalising poll of a plain move: record and persist the
reached position and report the percentage. -/
theorem motorRun_complete_plain (s : MotorState) (h1 : s.isMotorRunning = true)
    (h2 : s.stepperRunning = false) (h3 : s.isSetMax = false)
    (h4 : s.isSetMin = false) :
    motorRun s =
      ({ s with isMotorRunning := false, currPos := s.stepperPos,
                memCurrPos := some s.stepperPos },
       [Event.putCurrPos s.stepperPos,
        Event.sendMqtt (motorCurrentPercentage s.stepperPos s.maxPos)]) := by
  simp [motorRun, finalizeCalib, h1, h2, h3, h4]

/-- Closed form of motorSetMin for a nonnegative maxPos: the flag raised, the
speed quartered, the old position saved in prevPos, the counter set to the
sentinel and a move to 0 commanded. -/
theorem motorSetMin_eq (s : MotorState) (hmp : 0 ≤ s.maxPos) :
    motorSetMin s =
      ({ s with isSetMin := true, stepperSpeed := s.max_speed / 4,
                prevPos := s.stepperPos, stepperPos := 2147483646,
                stepperTarget := 0, stepperRunning := true,
                isMotorRunning := true },
       [Event.setSpeedInHz (s.max_speed / 4), Event.setCurrentPos 2147483646,
        Event.moveTo 0]) := by
  simp only [motorSetMin]
  rw [motorMoveTo_eq]
  dsimp only
  have hg : reversalGuard 0 2147483646 2147483646 = false := by decide
  have hc : ((0 : Int) ≠ 2147483646 ∧ (0 : Int) ≤ s.maxPos) := ⟨by decide, hmp⟩
  simp [hg, hc, forceStopFx]

/-- C1 counterexample: SetMax issued from a quiescent state with maxPos 50000,
the motor stalls at raw position 48731, the interrupt force-stops it; the next
poll of the run loop does not force-stop (the interrupt already did) and it
does commit the pending MaxPosition change: maxPos becomes 48731 and a flash
write of maxPos is emitted, so MaxPosition does not keep its pre-calibration
value 50000. -/
theorem c1_stall_during_setmax_commits :
    base.maxPos = 50000 ∧
    c1s3.isSetMax = true ∧
    c1s3.stepperRunning = false ∧
    Event.forceStop ∉ (motorRun c1s3).2 ∧
    Event.putMaxPos 48731 ∈ (motorRun c1s3).2 ∧
    (motorRun c1s3).1.maxPos = 48731 := by decide

/-- C1 amended: the stall interrupt itself force-stops the motor immediately
(the poll never issues a force-stop); the next poll that observes the stopped
motor finalises the move normally and commits, rather than aborts, an active
SetMax calibration: maxPos becomes the stalled position and is persisted. -/
theorem c1_stall_stop_then_commit (s : MotorState) :
    (Event.forceStop ∈ (stallguardInterrupt s).2 ∧
     (stallguardInterrupt s).1.stepperRunning = false) ∧
    (∀ t : MotorState, t.isMotorRunning = true → t.stepperRunning = false →
       t.isSetMax = true →
       Event.forceStop ∉ (motorRun t).2 ∧
       (motorRun t).1.maxPos = t.stepperPos ∧
       Event.putMaxPos t.stepperPos ∈ (motorRun t).2) := by
  refine ⟨⟨by simp [stallguardInterrupt], by simp [stallguardInterrupt, forceStopFx]⟩,
          fun t h1 h2 h3 => ?_⟩
  rw [motorRun_complete_setmax t h1 h2 h3]
  refine ⟨by simp, rfl, by simp⟩

/-- C1 witness: the amended behaviour evaluated on the stalled SetMax state at
position 48731. -/
theorem c1_stall_stop_then_commit_witness :
    Event.forceStop ∉ (motorRun c1s3).2 ∧
    (motorRun c1s3).1.maxPos = c1s3.stepperPos ∧
    Event.putMaxPos c1s3.stepperPos ∈ (motorRun c1s3).2 :=
  (c1_stall_stop_then_commit c1s2).2 c1s3 (by decide) (by decide) (by decide)

/-- C4 confirmed: when the motor of a SetMax calibration move is observed
stopped at any reached position r, the finalising poll sets maxPos to r,
persists it, restores the normal speed and clears the calibration flags. -/
theorem c4_setmax_commit (s : MotorState) (r : Int)
    (hrun : s.isMotorRunning = true) (hmax : s.isSetMax = true) :
    (motorRun (envObserve s r false)).1.maxPos = r ∧
    (motorRun (envObserve s r false)).1.memMaxPos = some r ∧
    Event.putMaxPos r ∈ (motorRun (envObserve s r false)).2 ∧
    (motorRun (envObserve s r false)).1.stepperSpeed = s.max_speed ∧
    (motorRun (envObserve s r false)).1.isSetMax = false := by
  have h1 : (envObserve s r false).isMotorRunning = true := hrun
  have h2 : (envObserve s r false).stepperRunning = false := rfl
  have h3 : (envObserve s r false).isSetMax = true := hmax
  rw [motorRun_complete_setmax _ h1 h2 h3]
  refine ⟨?_, ?_, ?_, ?_, ?_⟩ <;> simp [envObserve]

/-- C4 witness: the SetMax move from base stalls at raw position 48731, and
the finalising poll commits maxPos to 48731. -/
theorem c4_setmax_commit_witness :
    (motorRun (envObserve c1s1 48731 false)).1.maxPos = 48731 ∧
    (motorRun (envObserve c1s1 48731 false)).1.memMaxPos = some 48731 ∧
    Event.putMaxPos 48731 ∈ (motorRun (envObserve c1s1 48731 false)).2 ∧
    (motorRun (envObserve c1s1 48731 false)).1.stepperSpeed = c1s1.max_speed ∧
    (motorRun (envObserve c1s1 48731 false)).1.isSetMax = false :=
  c4_setmax_commit c1s1 48731 (by decide) (by decide)

/-- C5 confirmed: motorSetMin saves the current position in prevPos, sets the
stepper counter to the sentinel 2147483646 and commands a move toward 0; the
finalising poll computes the distance traveled from the sentinel, shifts
maxPos by that distance minus prevPos, resets the counter to 0, restores the
normal speed and returns to the idle calibration state. -/
theorem c5_setmin_start_and_commit (s : MotorState) (hmp : 0 ≤ s.maxPos) :
    ((motorSetMin s).1.prevPos = s.stepperPos ∧
     (motorSetMin s).1.stepperPos = 2147483646 ∧
     Event.setCurrentPos 2147483646 ∈ (motorSetMin s).2 ∧
     Event.moveTo 0 ∈ (motorSetMin s).2 ∧
     (motorSetMin s).1.isSetMin = true) ∧
    (∀ t : MotorState, t.isMotorRunning = true → t.stepperRunning = false →
       t.isSetMax = false → t.isSetMin = true →
       (motorRun t).1.maxPos = t.maxPos + (2147483646 - t.stepperPos) - t.prevPos ∧
       (motorRun t).1.stepperPos = 0 ∧
       Event.setCurrentPos 0 ∈ (motorRun t).2 ∧
       (motorRun t).1.stepperSpeed = t.max_speed ∧
       (motorRun t).1.isSetMin = false) := by
  constructor
  · rw [motorSetMin_eq s hmp]
    exact ⟨rfl, rfl, by simp, by simp, rfl⟩
  · intro t h1 h2 h3 h4
    rw [motorRun_complete_setmin t h1 h2 h3 h4]
    exact ⟨rfl, rfl, by simp, rfl, rfl⟩

/-- C5 witness: SetMin from the quiescent base state, then the finalising poll
on a SetMin move observed stopped at 2147483000 with prevPos 1000 shifts
maxPos from 50000 to 49646 and resets the counter. -/
theorem c5_setmin_start_and_commit_witness :
    ((motorSetMin base).1.prevPos = base.stepperPos ∧
     (motorSetMin base).1.stepperPos = 2147483646 ∧
     Event.setCurrentPos 2147483646 ∈ (motorSetMin base).2 ∧
     Event.moveTo 0 ∈ (motorSetMin base).2 ∧
     (motorSetMin base).1.isSetMin = true) ∧
    ((motorRun q3min).1.maxPos =
       q3min.maxPos + (2147483646 - q3min.stepperPos) - q3min.prevPos ∧
     (motorRun q3min).1.stepperPos = 0 ∧
     Event.setCurrentPos 0 ∈ (motorRun q3min).2 ∧
     (motorRun q3min).1.stepperSpeed = q3min.max_speed ∧
     (motorRun q3min).1.isSetMin = false) :=
  ⟨(c5_setmin_start_and_commit base (by decide)).1,
   (c5_setmin_start_and_commit base (by decide)).2 q3min
     (by decide) (by decide) (by decide) (by decide)⟩

/-- C6 counterexample: with the motor at position 10 moving toward target 100,
the new target 50 is on the same side of the current position as the
in-progress target (no direction reversal in the sense of the claim), yet
motorMoveTo issues a force-stop, because the guard in the source compares both
positions against the old target, not against the current position. -/
theorem c6_same_direction_still_forceStops :
    specOppositeSides 50 q6.stepperTarget q6.stepperPos = false ∧
    Event.forceStop ∈ (motorMoveTo q6 50).2 := by decide

/-- C6 amended: motorMoveTo issues a force-stop exactly when the guard of the
source holds, namely when the new target and the current position lie strictly
on the same side of the in-progress commanded target; the claimed
opposite-sides-of-current-position condition implies that guard (so a true
direction reversal always force-stops) but not conversely. -/
theorem c6_forceStop_iff_guard (s : MotorState) (newPos : Int) :
    (Event.forceStop ∈ (motorMoveTo s newPos).2 ↔
       reversalGuard newPos s.stepperTarget s.stepperPos = true) ∧
    (specOppositeSides newPos s.stepperTarget s.stepperPos = true →
       Event.forceStop ∈ (motorMoveTo s newPos).2) := by
  have hmain : Event.forceStop ∈ (motorMoveTo s newPos).2 ↔
      reversalGuard newPos s.stepperTarget s.stepperPos = true := by
    rw [motorMoveTo_eq]
    cases hg : reversalGuard newPos s.stepperTarget s.stepperPos <;>
      split <;> simp
  refine ⟨hmain, fun hspec => hmain.mpr ?_⟩
  revert hspec
  unfold specOppositeSides reversalGuard
  simp only [Bool.or_eq_true, Bool.and_eq_true, decide_eq_true_eq]
  omega

/-- C6 witness: a genuine reversal (moving from 10 toward 100, new target 5)
force-stops. -/
theorem c6_forceStop_iff_guard_witness :
    Event.forceStop ∈ (motorMoveTo q6 5).2 :=
  (c6_forceStop_iff_guard q6 5).2 (by decide)

/-- C8 counterexample: with maxPos 1000, percent 10 converts exactly to the
current position 100, but a move toward target 200 is in progress, so
motorMove issues a force-stop to the motion engine: the call is not a complete
no-op. -/
theorem c8_noop_percent_still_forceStops :
    percentToSteps q8 10 = q8.stepperPos ∧
    Event.forceStop ∈ (motorMove q8 10).2 := by decide

/-- C8 amended: when the converted target equals the current position, no
moveTo is issued and the running flag is unchanged; the call is a complete
no-op (no motion-engine call at all) exactly when additionally no move toward
a different target is in progress, i.e. the commanded target already equals
the current position. -/
theorem c8_moveToPercent_at_position (s : MotorState) (p : Int)
    (h : percentToSteps s p = s.stepperPos) :
    (motorMove s p).1.isMotorRunning = s.isMotorRunning ∧
    (∀ n : Int, Event.moveTo n ∉ (motorMove s p).2) ∧
    (s.stepperTarget = s.stepperPos →
       (motorMove s p).1 = s ∧ (motorMove s p).2 = []) := by
  unfold motorMove
  rw [motorMoveTo_eq, h]
  refine ⟨?_, ?_, ?_⟩
  · split
    · next hc => exact absurd rfl hc.1
    · split <;> rfl
  · intro n
    split
    · next hc => exact absurd rfl hc.1
    · split <;> simp
  · intro ht
    have hg : reversalGuard s.stepperPos s.stepperTarget s.stepperPos = false := by
      unfold reversalGuard
      simp only [ht]
      simp only [Bool.or_eq_false_iff, Bool.and_eq_false_iff]
      constructor <;> left <;> simp
    rw [hg]
    split
    · next hc => exact absurd rfl hc.1
    · exact ⟨rfl, rfl⟩

/-- C8 witness: at a quiescent state at position 100 with maxPos 1000,
moveToPercent 10 is a complete no-op. -/
theorem c8_moveToPercent_at_position_witness :
    (motorMove (quiet 1000 1000 100) 10).1 = quiet 1000 1000 100 ∧
    (motorMove (quiet 1000 1000 100) 10).2 = [] :=
  (c8_moveToPercent_at_position (quiet 1000 1000 100) 10 (by decide)).2.2 rfl

/-- C10 confirmed: motorCurrentPercentage returns 0 whenever the stored
current position is 0, regardless of maxPos; for a nonzero current position it
divides by maxPos with no zero guard, so the value is undefined (none) when
maxPos is 0 and otherwise the rounded quotient currPos / maxPos * 100. -/
theorem c10_currentPercentage (currPos maxPos : Int) :
    (currPos = 0 → motorCurrentPercentage currPos maxPos = some 0) ∧
    (currPos ≠ 0 → maxPos = 0 → motorCurrentPercentage currPos maxPos = none) ∧
    (currPos ≠ 0 → maxPos ≠ 0 →
       motorCurrentPercentage currPos maxPos =
         some (roundQuot (currPos * 100) maxPos)) := by
  refine ⟨fun h0 => ?_, fun h1 h2 => ?_, fun h1 h2 => ?_⟩
  · simp [motorCurrentPercentage, h0]
  · simp [motorCurrentPercentage, h1, h2]
  · simp [motorCurrentPercentage, h1, h2]

/-- C10 witness: percentage 0 at position 0 even with maxPos 0; undefined at
position 7 with maxPos 0; the rounded quotient at 25000 of 50000. -/
theorem c10_currentPercentage_witness :
    motorCurrentPercentage 0 0 = some 0 ∧
    motorCurrentPercentage 7 0 = none ∧
    motorCurrentPercentage 25000 50000 = some (roundQuot 2500000 50000) :=
  ⟨(c10_currentPercentage 0 0).1 rfl,
   (c10_currentPercentage 7 0).2.1 (by decide) rfl,
   (c10_currentPercentage 25000 50000).2.2 (by decide) (by decide)⟩

/-- C2 counterexample: from a quiescent state at position 1000 with maxPos
50000, percent 150 converts to 75000 which exceeds maxPos; the command is
silently dropped (no event at all, running flag not set) instead of being
clamped to the travel window and issued; and percent -50 converts to -25000
which is issued unclamped, below the travel window. -/
theorem c2_out_of_range_not_clamped :
    percentToSteps base 150 = 75000 ∧
    (motorMove base 150).2 = [] ∧
    (motorMove base 150).1.isMotorRunning = false ∧
    percentToSteps base (-50) = -25000 ∧
    Event.moveTo (-25000) ∈ (motorMove base (-50)).2 := by decide

/-- C2 amended: moveToPercent converts p to round(p * maxPos / 100); when the
converted target exceeds maxPos the command is silently dropped (no moveTo is
issued and the running flag is unchanged), and when the target is at most
maxPos and differs from the current position the move is issued to the
unclamped target, negative targets included; no input makes the controller
fail. -/
theorem c2_movePercent_drop_or_issue (s : MotorState) (p : Int) :
    (s.maxPos < percentToSteps s p →
       (∀ n : Int, Event.moveTo n ∉ (motorMove s p).2) ∧
       (motorMove s p).1.isMotorRunning = s.isMotorRunning) ∧
    (percentToSteps s p ≤ s.maxPos → percentToSteps s p ≠ s.stepperPos →
       Event.moveTo (percentToSteps s p) ∈ (motorMove s p).2 ∧
       (motorMove s p).1.isMotorRunning = true) := by
  unfold motorMove
  rw [motorMoveTo_eq]
  constructor
  · intro hover
    constructor
    · intro n
      split
      · next hc => omega
      · split <;> simp
    · split
      · next hc => omega
      · split <;> rfl
  · intro hle hne
    split
    · next hc => constructor <;> simp
    · next hc =>
      exact absurd ⟨hne, hle⟩ hc

/-- C2 witness: percent 150 from the quiescent base state is dropped with the
running flag still down, and percent 40 is issued. -/
theorem c2_movePercent_drop_or_issue_witness :
    ((∀ n : Int, Event.moveTo n ∉ (motorMove base 150).2) ∧
       (motorMove base 150).1.isMotorRunning = base.isMotorRunning) ∧
    (Event.moveTo (percentToSteps base 40) ∈ (motorMove base 40).2 ∧
       (motorMove base 40).1.isMotorRunning = true) :=
  ⟨(c2_movePercent_drop_or_issue base 150).1 (by decide),
   (c2_movePercent_drop_or_issue base 40).2 (by decide) (by decide)⟩

/-- motorMoveTo never writes maxPos to flash. -/
theorem motorMoveTo_no_putMax (s : MotorState) (n v : Int) :
    Event.putMaxPos v ∉ (motorMoveTo s n).2 := by
  intro h
  rcases motorMoveTo_events s n _ h with h' | h' <;> exact Event.noConfusion h'

/-- motorMoveTo never writes currPos to flash. -/
theorem motorMoveTo_no_putCurr (s : MotorState) (n : Int) :
    (motorMoveTo s n).2.countP isPutCurr = 0 := by
  rw [List.countP_eq_zero]
  intro e he
  rcases motorMoveTo_events s n e he with h | h <;> simp [h, isPutCurr]

/-- motorSetMax leaves maxPos at the sentinel. -/
theorem motorSetMax_maxPos (s : MotorState) :
    (motorSetMax s).1.maxPos = 2147483646 := by
  simp only [motorSetMax]
  rw [motorMoveTo_maxPos]

/-- motorSetMax does not write maxPos to flash. -/
theorem motorSetMax_no_putMax (s : MotorState) (v : Int) :
    Event.putMaxPos v ∉ (motorSetMax s).2 := by
  simp only [motorSetMax]
  intro hmem
  rcases List.mem_cons.mp hmem with h | h
  · exact Event.noConfusion h
  · exact motorMoveTo_no_putMax _ _ _ h

/-- motorSetMin does not change maxPos. -/
theorem motorSetMin_maxPos (s : MotorState) :
    (motorSetMin s).1.maxPos = s.maxPos := by
  simp only [motorSetMin]
  rw [motorMoveTo_maxPos]

/-- motorSetMin does not write maxPos to flash. -/
theorem motorSetMin_no_putMax (s : MotorState) (v : Int) :
    Event.putMaxPos v ∉ (motorSetMin s).2 := by
  simp only [motorSetMin]
  intro hmem
  rcases List.mem_cons.mp hmem with h | h
  · exact Event.noConfusion h
  · rcases List.mem_cons.mp h with h' | h'
    · exact Event.noConfusion h'
    · exact motorMoveTo_no_putMax _ _ _ h'

/-- motorSetMax does not write currPos to flash. -/
theorem motorSetMax_no_putCurr (s : MotorState) :
    (motorSetMax s).2.countP isPutCurr = 0 := by
  simp only [motorSetMax, List.countP_cons]
  rw [motorMoveTo_no_putCurr]
  simp [isPutCurr]

/-- motorSetMin does not write currPos to flash. -/
theorem motorSetMin_no_putCurr (s : MotorState) :
    (motorSetMin s).2.countP isPutCurr = 0 := by
  simp only [motorSetMin, List.countP_cons]
  rw [motorMoveTo_no_putCurr]
  simp [isPutCurr]

/-- C3 counterexample: motorSetMax mutates maxPos (50000 becomes the sentinel
2147483646) at calibration start, before any phase completes, and emits no
flash write of maxPos; and the finalising poll of a SetMin calibration mutates
maxPos (50000 becomes 49646) also without any flash write of maxPos. -/
theorem c3_maxpos_mutated_unpersisted :
    (base.maxPos = 50000 ∧
     (motorSetMax base).1.maxPos = 2147483646 ∧
     (motorSetMax base).2 = [Event.setSpeedInHz 250, Event.moveTo 2147483646]) ∧
    ((motorRun q3min).1.maxPos = 49646 ∧
     (motorRun q3min).2 = [Event.setCurrentPos 0, Event.setSpeedInHz 1000,
                           Event.putCurrPos 0, Event.sendMqtt (some 0)]) := by
  decide

/-- C3 amended: maxPos is mutated in exactly three places: motorSetMax sets it
to the sentinel 2147483646 at calibration start without persisting it; the
finalising poll of a SetMax calibration sets it to the reached position and
immediately persists it; and the finalising poll of a SetMin calibration
shifts it by the distance traveled minus prevPos without persisting it.  No
other command mutates maxPos, and the only flash write of maxPos is the one of
the SetMax finalisation. -/
theorem c3_maxpos_mutation_sites (s : MotorState) (c : Cmd) :
    ((step s c).1.maxPos ≠ s.maxPos →
       c = Cmd.setMaxCmd ∨
       (c = Cmd.runPoll ∧ s.isMotorRunning = true ∧ s.stepperRunning = false ∧
          (s.isSetMax = true ∨ s.isSetMin = true))) ∧
    (c = Cmd.setMaxCmd →
       (step s c).1.maxPos = 2147483646 ∧
       ∀ v : Int, Event.putMaxPos v ∉ (step s c).2) ∧
    (∀ v : Int, Event.putMaxPos v ∈ (step s c).2 →
       c = Cmd.runPoll ∧ s.isSetMax = true ∧ v = s.stepperPos ∧
       (step s c).1.maxPos = v ∧ (step s c).1.memMaxPos = some v) ∧
    (c = Cmd.runPoll → s.isMotorRunning = true → s.stepperRunning = false →
       s.isSetMax = false → s.isSetMin = true →
       (step s c).1.maxPos = s.maxPos + (2147483646 - s.stepperPos) - s.prevPos ∧
       ∀ v : Int, Event.putMaxPos v ∉ (step s c).2) := by
  cases c with
  | moveToPos n =>
    exact ⟨fun h => absurd (motorMoveTo_maxPos s n) h,
           fun h => Cmd.noConfusion h,
           fun v hv => absurd hv (motorMoveTo_no_putMax s n v),
           fun h => Cmd.noConfusion h⟩
  | movePercent p =>
    exact ⟨fun h => absurd (motorMoveTo_maxPos s (percentToSteps s p)) h,
           fun h => Cmd.noConfusion h,
           fun v hv => absurd hv (motorMoveTo_no_putMax s (percentToSteps s p) v),
           fun h => Cmd.noConfusion h⟩
  | goMin =>
    exact ⟨fun h => absurd (motorMoveTo_maxPos s 0) h,
           fun h => Cmd.noConfusion h,
           fun v hv => absurd hv (motorMoveTo_no_putMax s 0 v),
           fun h => Cmd.noConfusion h⟩
  | goMax =>
    exact ⟨fun h => absurd (motorMoveTo_maxPos s s.maxPos) h,
           fun h => Cmd.noConfusion h,
           fun v hv => absurd hv (motorMoveTo_no_putMax s s.maxPos v),
           fun h => Cmd.noConfusion h⟩
  | setMaxCmd =>
    exact ⟨fun _ => Or.inl rfl,
           fun _ => ⟨motorSetMax_maxPos s, fun v => motorSetMax_no_putMax s v⟩,
           fun v hv => absurd hv (motorSetMax_no_putMax s v),
           fun h => Cmd.noConfusion h⟩
  | setMinCmd =>
    exact ⟨fun h => absurd (motorSetMin_maxPos s) h,
           fun h => Cmd.noConfusion h,
           fun v hv => absurd hv (motorSetMin_no_putMax s v),
           fun h => Cmd.noConfusion h⟩
  | stopCmd =>
    refine ⟨fun h => absurd rfl h, fun h => Cmd.noConfusion h,
            fun v hv => ?_, fun h => Cmd.noConfusion h⟩
    simp [step, motorStop] at hv
  | stallIrq =>
    refine ⟨fun h => absurd rfl h, fun h => Cmd.noConfusion h,
            fun v hv => ?_, fun h => Cmd.noConfusion h⟩
    simp [step, stallguardInterrupt] at hv
  | runPoll =>
    simp only [step]
    cases hr : s.isMotorRunning with
    | false =>
      rw [motorRun_flag_down s hr]
      refine ⟨fun h => absurd rfl h, fun h => Cmd.noConfusion h,
              fun v hv => ?_, fun _ h1 _ _ _ => ?_⟩
      · simp at hv
      · exact Bool.noConfusion h1
    | true =>
      cases hsr : s.stepperRunning with
      | true =>
        rw [motorRun_still_running s hr hsr]
        refine ⟨fun h => absurd rfl h, fun h => Cmd.noConfusion h,
                fun v hv => ?_, fun _ _ h2 _ _ => ?_⟩
        · simp at hv
        · exact Bool.noConfusion h2
      | false =>
        cases hmx : s.isSetMax with
        | true =>
          rw [motorRun_complete_setmax s hr hsr hmx]
          refine ⟨fun _ => Or.inr (by simp),
                  fun h => Cmd.noConfusion h,
                  fun v hv => ?_, fun _ _ _ h3 _ => ?_⟩
          · have hv' : v = s.stepperPos := by
              simpa using hv
            subst hv'
            refine ⟨by trivial, by trivial, rfl, rfl, rfl⟩
          · exact Bool.noConfusion h3
        | false =>
          cases hmn : s.isSetMin with
          | true =>
            rw [motorRun_complete_setmin s hr hsr hmx hmn]
            refine ⟨fun _ => Or.inr (by simp),
                    fun h => Cmd.noConfusion h,
                    fun v hv => ?_, fun _ _ _ _ _ => ?_⟩
            · simp at hv
            · exact ⟨rfl, fun v hv => by simp at hv⟩
          | false =>
            rw [motorRun_complete_plain s hr hsr hmx hmn]
            refine ⟨fun h => absurd rfl h, fun h => Cmd.noConfusion h,
                    fun v hv => ?_, fun _ _ _ _ h4 => ?_⟩
            · simp at hv
            · exact Bool.noConfusion h4

/-- C3 witness for the amended claim: evaluated on the SetMax finalising poll
of the stalled calibration at position 48731. -/
theorem c3_maxpos_mutation_sites_witness :
    Cmd.runPoll = Cmd.runPoll ∧ c1s3.isSetMax = true ∧
    (48731 : Int) = c1s3.stepperPos ∧
    (step c1s3 Cmd.runPoll).1.maxPos = 48731 ∧
    (step c1s3 Cmd.runPoll).1.memMaxPos = some 48731 :=
  (c3_maxpos_mutation_sites c1s3 Cmd.runPoll).2.2.1 48731 (by decide)

/-- C7 confirmed: at startup loadPositions reads maxPos with default 50000 and
currPos with default 0 from flash and initialises the stepper counter to the
loaded currPos; thereafter, over every inbound command, interrupt and poll,
currPos is written to flash exactly once per completed move, namely on the
poll that observes the motor stopped while the running flag is up, and that
poll clears the running flag so no later poll writes again. -/
theorem c7_position_persistence (s : MotorState) (c : Cmd) :
    ((loadPositions s).1.maxPos = s.memMaxPos.getD 50000 ∧
     (loadPositions s).1.currPos = s.memCurrPos.getD 0 ∧
     (loadPositions s).1.stepperPos = s.memCurrPos.getD 0 ∧
     (loadPositions s).2 = [Event.setCurrentPos (s.memCurrPos.getD 0)]) ∧
    ((step s c).2.countP isPutCurr =
       if c = Cmd.runPoll ∧ s.isMotorRunning = true ∧ s.stepperRunning = false
       then 1 else 0) ∧
    (c = Cmd.runPoll → s.isMotorRunning = true → s.stepperRunning = false →
       (step s c).1.isMotorRunning = false) := by
  refine ⟨⟨rfl, rfl, rfl, rfl⟩, ?_, ?_⟩
  · cases c with
    | moveToPos n =>
      rw [if_neg (by simp)]
      exact motorMoveTo_no_putCurr s n
    | movePercent p =>
      rw [if_neg (by simp)]
      exact motorMoveTo_no_putCurr s (percentToSteps s p)
    | goMin =>
      rw [if_neg (by simp)]
      exact motorMoveTo_no_putCurr s 0
    | goMax =>
      rw [if_neg (by simp)]
      exact motorMoveTo_no_putCurr s s.maxPos
    | setMaxCmd =>
      rw [if_neg (by simp)]
      exact motorSetMax_no_putCurr s
    | setMinCmd =>
      rw [if_neg (by simp)]
      exact motorSetMin_no_putCurr s
    | stopCmd =>
      rw [if_neg (by simp)]
      simp [step, motorStop, isPutCurr]
    | stallIrq =>
      rw [if_neg (by simp)]
      simp [step, stallguardInterrupt, isPutCurr]
    | runPoll =>
      simp only [step]
      cases hr : s.isMotorRunning with
      | false =>
        rw [motorRun_flag_down s hr]
        simp [hr]
      | true =>
        cases hsr : s.stepperRunning with
        | true =>
          rw [motorRun_still_running s hr hsr]
          simp [hsr]
        | false =>
          cases hmx : s.isSetMax with
          | true =>
            rw [motorRun_complete_setmax s hr hsr hmx]
            simp [hr, hsr, isPutCurr, List.countP_cons]
          | false =>
            cases hmn : s.isSetMin with
            | true =>
              rw [motorRun_complete_setmin s hr hsr hmx hmn]
              simp [hr, hsr, isPutCurr, List.countP_cons]
            | false =>
              rw [motorRun_complete_plain s hr hsr hmx hmn]
              simp [hr, hsr, isPutCurr, List.countP_cons]
  · intro h1 h2 h3
    subst h1
    simp only [step]
    cases hmx : s.isSetMax with
    | true => rw [motorRun_complete_setmax s h2 h3 hmx]
    | false =>
      cases hmn : s.isSetMin with
      | true => rw [motorRun_complete_setmin s h2 h3 hmx hmn]
      | false => rw [motorRun_complete_plain s h2 h3 hmx hmn]

/-- C7 witness: a plain completed move from base, polled once. -/
theorem c7_position_persistence_witness :
    ((loadPositions q7).1.maxPos = q7.memMaxPos.getD 50000 ∧
     (loadPositions q7).1.currPos = q7.memCurrPos.getD 0 ∧
     (loadPositions q7).1.stepperPos = q7.memCurrPos.getD 0 ∧
     (loadPositions q7).2 = [Event.setCurrentPos (q7.memCurrPos.getD 0)]) ∧
    ((step q7 Cmd.runPoll).2.countP isPutCurr = 1) ∧
    (step q7 Cmd.runPoll).1.isMotorRunning = false :=
  ⟨(c7_position_persistence q7 Cmd.runPoll).1,
   by
     have h := (c7_position_persistence q7 Cmd.runPoll).2.1
     rwa [if_pos ⟨rfl, rfl, rfl⟩] at h,
   (c7_position_persistence q7 Cmd.runPoll).2.2 rfl rfl rfl⟩

/-- C9 confirmed: when stepperConnectToPin yields a null handle, motorSetup
logs but still proceeds to loadPositions, which dereferences the null handle
in setCurrentPosition; motorMoveTo, motorStop and a poll of motorRun with the
running flag up likewise dereference the handle with no null check, so every
one of them hits the null dereference. -/
theorem c9_null_stepper_deref :
    (∀ memMax memCurr : Option Int,
       motorSetupN none memMax memCurr = Except.error NullDeref.nullDeref) ∧
    (∀ maxPos newPos : Int,
       motorMoveToN none maxPos newPos = Except.error NullDeref.nullDeref) ∧
    motorStopN none = Except.error NullDeref.nullDeref ∧
    motorRunN none true = Except.error NullDeref.nullDeref :=
  ⟨fun _ _ => rfl, fun _ _ => rfl, rfl, rfl⟩

end Motorshades
